import Mathlib

/-!
Shallow embedding of the nsync instruction pipeline (TypeScript sources under
`src/`): the store data model, the delta engine, the flake build adapter
(`src/utils/nixFlake.ts`), the load-archive command
(`src/utils/instructions/commands/loadArchive.ts`), the store-switch command,
and the apply-instruction executor from `src/main.ts`.  External subprocesses
(nix, git, tar) are modelled as environment records of total functions, and
side effects as explicit state passing plus call traces.
-/

namespace NSync

/-! ## Data model (spec §3, loadArchive.ts / schemas) -/

/-- A store root: `{ nixPath, gitRevision }` (the `storeRoot` zod schema). -/
structure StoreRoot where
  nixPath : String
  gitRevision : String
deriving DecidableEq, Repr

/-- Path metadata as returned by the store's path-info query. -/
structure PathInfo where
  path : String
  narHash : String
  narSize : Nat
  references : List String
deriving DecidableEq, Repr

/-! ## Delta engine

Modelled from the spec: `getStoreDeltaPathsDelta` lives in
`src/utils/nixStore.ts`, which is absent from `src/` (only its callers are
present).  Spec §4.2: `computeDelta(storeDir, fromRoots, toRoot)`;
`F = ⋃ closure(r) for r in fromRoots`, `T = closure(toRoot)`,
`added = [p ∈ T if p.path ∉ F]`, `allResultingItems = T`.  The closure of a
root is the fixpoint of `references` (§3).  The topological sort the spec
also prescribes is a determinism device and is not needed by the properties
below, so the model keeps discovery order. -/

/-- Look up the `PathInfo` for a store path in the queried store data. -/
def findInfo (store : List PathInfo) (p : String) : Option PathInfo :=
  store.find? (fun i => i.path = p)

/-- One expansion step of the reference fixpoint: append every reference of an
already-reached path that is not yet in the accumulator. -/
def closureExpand (store : List PathInfo) (acc : List String) : List String :=
  let next := (acc.filterMap (findInfo store)).flatMap (fun i => i.references)
  next.foldl (fun a r => if r ∈ a then a else a ++ [r]) acc

/-- Iterate the expansion step `fuel` times. -/
def closurePathsFuel (store : List PathInfo) : Nat → List String → List String
  | 0, acc => acc
  | n + 1, acc => closurePathsFuel store n (closureExpand store acc)

/-- Transitive closure of a root via `references`; `store.length` iterations
reach the fixpoint since each step can only add paths described by `store`. -/
def closurePaths (store : List PathInfo) (root : String) : List String :=
  closurePathsFuel store store.length [root]

/-- The `PathInfo` records of a root's closure. -/
def closureInfos (store : List PathInfo) (root : String) : List PathInfo :=
  (closurePaths store root).filterMap (findInfo store)

/-- Union of the closures of the from-roots. -/
def unionClosure (store : List PathInfo) (roots : List String) : List String :=
  roots.flatMap (closurePaths store)

/-- Result of the delta engine: the paths added relative to the from-roots,
and the full closure of the to-root. -/
structure Delta where
  added : List PathInfo
  allResultingItems : List PathInfo
deriving DecidableEq, Repr

/-- Modelled from the spec: `computeDelta` / `getStoreDeltaPathsDelta`
(spec §4.2; `src/utils/nixStore.ts` is absent from `src/`). -/
def computeDelta (store : List PathInfo) (fromRoots : List String)
    (toRoot : String) : Delta :=
  let F := unionClosure store fromRoots
  let T := closureInfos store toRoot
  { added := T.filter (fun p => !(F.contains p.path)),
    allResultingItems := T }

/-! ## Flake build adapter (`src/utils/nixFlake.ts`)

The external `nix` invocations are modelled by a `FlakeEnv` of total
functions, and every invocation is recorded in a trace of `ExtCall`s so that
ordering claims ("before any store build") can be stated. -/

/-- One invocation of an external tool made by the build pipeline. -/
inductive ExtCall
  /-- `nix flake info --json <uri>[?ref=<ref>]` (`getRevisionFromRef`). -/
  | flakeInfo (uri : String) (ref : Option String)
  /-- `nix flake show --json <uri>[?rev=<rev>]` (`getFlakeHostnames`). -/
  | flakeShow (uri : String) (rev : Option String)
  /-- `nix build --json --no-link --store <dir> <uri>?rev=<rev>#nixosConfigurations.<host>...toplevel`. -/
  | nixBuild (uri : String) (rev : String) (hostname : String)
  /-- `copyOutputToArchive` (nixArchive.ts): export the item's closure into the archive. -/
  | copyOutputToArchive (storePath archivePath item : String)
  /-- `fs.promises.rm(archiveFolderPath, { force: true, recursive: true })`. -/
  | rmArchiveFolder (path : String)
  /-- `makeArchiveSubset` with the chosen info and data item paths. -/
  | archiveSubset (dest : String) (infoItemPaths dataItemPaths : List String)
deriving DecidableEq, Repr

/-- Abstract behaviour of the external nix toolchain, assumed successful:
`revisionFor` is `nix flake info`'s resolution of an optional `?ref=` to a
commit id, `hostnamesAt` the keys of `nixosConfigurations` from
`nix flake show`, and `drvPathAt`/`outPathAt` the build result. -/
structure FlakeEnv where
  revisionFor : Option String → String
  hostnamesAt : String → List String
  drvPathAt : String → String → String
  outPathAt : String → String → String

/-- The value `buildSystemFlake` resolves to: `{ derivation, output, gitRevision }`. -/
structure FlakeBuildResult where
  derivation : String
  output : String
  gitRevision : String
deriving DecidableEq, Repr

/-- Errors thrown by `buildSystemFlake` itself (external tools modelled as
succeeding): the hostname-validation throw of nixFlake.ts lines 152-158. -/
inductive BuildErr
  /-- `No flake configuration found for hostname: <h>. Available hostnames: <list>`. -/
  | unknownHostname (hostname : String) (available : List String)
deriving DecidableEq, Repr

/-- `BuildFlakeArgs` of nixFlake.ts: note the optional field is named `ref`,
not `rev`. -/
structure BuildFlakeArgs where
  flakeGitUri : String
  storeAbsolutePath : String
  hostname : String
  ref : Option String
deriving Repr

/-- `buildSystemFlake` (nixFlake.ts lines 142-192): resolve `ref` to a
revision, enumerate hostnames at that revision, throw if the requested
hostname is absent, and only then run `nix build` at the resolved revision.
Returns the result (or error) together with the trace of external calls. -/
def buildSystemFlake (env : FlakeEnv) (args : BuildFlakeArgs) :
    Except BuildErr FlakeBuildResult × List ExtCall :=
  let gitRev := env.revisionFor args.ref
  let hostnames := env.hostnamesAt gitRev
  let calls := [ExtCall.flakeInfo args.flakeGitUri args.ref,
    ExtCall.flakeShow args.flakeGitUri (some gitRev)]
  if args.hostname ∈ hostnames then
    (Except.ok
      { derivation := env.drvPathAt gitRev args.hostname,
        output := env.outPathAt gitRev args.hostname,
        gitRevision := gitRev },
      calls ++ [ExtCall.nixBuild args.flakeGitUri gitRev args.hostname])
  else
    (Except.error (BuildErr.unknownHostname args.hostname hostnames), calls)

/-- The call shape used by every caller that wants a specific revision
(loadArchive.ts line 87, the switch command's build, and the dep-rev loop):
the object literal passes a property named `rev`, but `BuildFlakeArgs`
declares `ref`, so under JavaScript destructuring `ref` is `undefined`
inside `buildSystemFlake` and the requested revision is dropped. -/
def buildSystemFlakeForRev (env : FlakeEnv)
    (flakeGitUri hostname storeAbsolutePath rev : String) :
    Except BuildErr FlakeBuildResult × List ExtCall :=
  buildSystemFlake env
    { flakeGitUri := flakeGitUri, storeAbsolutePath := storeAbsolutePath,
      hostname := hostname, ref := none }

/-! ## Switch command (`src/utils/instructions/commands/storeSwitch.ts`) -/

/-- The `mode` field of the switch command schema:
`z.union([z.literal("immediate"), z.literal("next-reboot")])`. -/
inductive SwitchMode
  | immediate
  | nextReboot
deriving DecidableEq, Repr

/-- The serialized switch command: `{ kind: "switch", item, mode }`. -/
structure StoreSwitchCommand where
  item : StoreRoot
  mode : SwitchMode
deriving DecidableEq, Repr

/-- The argument record of `makeNewSystemGeneration` (nixGenerations.ts) as
invoked by `executeStoreSwitchCommand`. -/
structure MakeGenerationCall where
  storePath : String
  nixItemPath : String
  executeActivation : String
deriving DecidableEq, Repr

/-- `executeStoreSwitchCommand` (storeSwitch.ts lines 49-58): it invokes
`makeNewSystemGeneration({ storePath: "/", nixItemPath: args.item.nixPath,
executeActivation: "switch" })`; `args.mode` is never read. -/
def executeStoreSwitchCommand (args : StoreSwitchCommand) : MakeGenerationCall :=
  { storePath := "/",
    nixItemPath := args.item.nixPath,
    executeActivation := "switch" }

/-- Modelled from the spec: the activation verb a Switch with the given mode
must issue — spec §6 names the verb pair `switch-to-configuration
{switch|boot}` and §4.4.2 has Execute pass the command's mode, so
`immediate` maps to the verb `switch` and `next-reboot` to `boot`
(`nixGenerations.ts` is absent from `src/`). -/
def specActivationVerb : SwitchMode → String
  | .immediate => "switch"
  | .nextReboot => "boot"

/-! ## Load command (`src/utils/instructions/commands/loadArchive.ts`) -/

/-- The serialized load command (`loadArchiveDeltaCommandSchema`):
`{ kind: "load", archivePath, deltaDependencies, partialNarinfos, item }`. -/
structure LoadCommand where
  archivePath : String
  deltaDependencies : List StoreRoot
  partialNarinfos : Bool
  item : StoreRoot
deriving DecidableEq, Repr

/-- `InstructionExecutionSharedArgs`: the target store root, the client-state
cache directory and the decompressed instruction directory. -/
structure ExecSharedArgs where
  storePath : String
  clientStateStorePath : String
  instructionFolderPath : String
deriving DecidableEq, Repr

/-- Target-host filesystem state relevant to `Load.execute`: narinfo file
names in the instruction's archive directory, narinfo file names in the
client-state cache, and the items present in the target store. -/
structure FsState where
  archiveNarinfos : List String
  cacheNarinfos : List String
  storeItems : List String
deriving DecidableEq, Repr

/-- External collaborators of `Load.execute`, modelled as total functions:
`narinfoFilesFor` is `getNarinfoFileListForNixPaths` (clientStore.ts) —
narinfo file names found in the target store / cache for the dependency nix
paths — and `importOk` is whether `copyArchiveToStore` (`nix copy` from the
archive) succeeds for the item. -/
structure ExecEnv where
  narinfoFilesFor : Option String → String → List String → List String
  importOk : String → Option String → Bool

/-- Copy one file into a directory listing: overwriting keeps the name set,
a new name is appended. -/
def copyFileIn (files : List String) (f : String) : List String :=
  if f ∈ files then files else files ++ [f]

/-- Copy a list of files into a directory listing, in order. -/
def copyFilesIn (files : List String) (new : List String) : List String :=
  new.foldl copyFileIn files

/-- Effectful sub-steps of `Load.execute`, traced in execution order. -/
inductive ExecStep
  /-- The `for` loop copying the looked-up dependency narinfo files into the archive dir. -/
  | enrichArchive (files : List String)
  /-- `copyArchiveToStore` for the command's item. -/
  | importToStore (item : String)
  /-- `copyNarinfoFilesToCache` with the listed (pre-enrichment) files. -/
  | appendCache (files : List String)
deriving DecidableEq, Repr

/-- Failure of the store import. -/
inductive ExecErr
  | importFailed (item : String)
deriving DecidableEq, Repr

/-- `executeLoadArchiveDeltaCommand` (loadArchive.ts lines 148-198):
snapshot the archive dir's narinfo files (`getAbsoluteNarinfoListInDir`),
look up dependency narinfo files and copy them into the archive dir,
`copyArchiveToStore` the item, then `copyNarinfoFilesToCache` with the
*pre-enrichment* snapshot.  A failed import aborts (the thrown error carries
the filesystem state at that point); `partialNarinfos` is destructured but
never used.  Returns the result and the trace of effectful sub-steps. -/
def executeLoadArchiveDeltaCommand (env : ExecEnv) (cmd : LoadCommand)
    (shared : ExecSharedArgs) (fs : FsState) :
    Except (ExecErr × FsState) FsState × List ExecStep :=
  let existingNarinfoFilePaths := fs.archiveNarinfos
  let storeArg := if shared.storePath = "/" then none else some shared.storePath
  let narinfoFiles := env.narinfoFilesFor storeArg shared.clientStateStorePath
    (cmd.deltaDependencies.map (fun d => d.nixPath))
  let fs1 := { fs with archiveNarinfos := copyFilesIn fs.archiveNarinfos narinfoFiles }
  if env.importOk cmd.item.nixPath storeArg then
    let fs2 := { fs1 with storeItems := copyFileIn fs1.storeItems cmd.item.nixPath }
    let fs3 := { fs2 with
      cacheNarinfos := copyFilesIn fs2.cacheNarinfos existingNarinfoFilePaths }
    (Except.ok fs3,
      [ExecStep.enrichArchive narinfoFiles,
       ExecStep.importToStore cmd.item.nixPath,
       ExecStep.appendCache existingNarinfoFilePaths])
  else
    (Except.error (ExecErr.importFailed cmd.item.nixPath, fs1),
      [ExecStep.enrichArchive narinfoFiles,
       ExecStep.importToStore cmd.item.nixPath])

/-- `InstructionBuilderSharedArgs`: the instruction directory being
assembled, the workdir archive directory and the workdir store directory. -/
structure BuildSharedArgs where
  instructionFolderPath : String
  workdirArchivePath : String
  workdirStorePath : String
deriving DecidableEq, Repr

/-- `BuildLoadArchiveDeltaCommandArgs` (minus the literal `kind`). -/
structure BuildLoadArgs where
  flakeGitUri : String
  hostname : String
  archiveFolderName : String
  deltaDependencyRevs : List String
  partialNarinfos : Bool
  newRev : String
deriving DecidableEq, Repr

/-- Build-host environment: the nix toolchain plus the path-info data the
workdir store answers delta queries from. -/
structure BuildEnv where
  flake : FlakeEnv
  store : List PathInfo

/-- The `for (const rev of deltaDependencyRevs)` loop of
`buildLoadArchiveDeltaCommand` (loadArchive.ts lines 70-84): build each
dependency revision in order, aborting on the first failure, pairing each
requested `rev` with its build info. -/
def buildDepRevs (env : FlakeEnv) (uri hostname storePath : String) :
    List String → Except BuildErr (List (String × FlakeBuildResult)) × List ExtCall
  | [] => (Except.ok [], [])
  | rev :: revs =>
    match buildSystemFlakeForRev env uri hostname storePath rev with
    | (Except.error e, calls) => (Except.error e, calls)
    | (Except.ok info, calls) =>
      match buildDepRevs env uri hostname storePath revs with
      | (Except.error e, calls2) => (Except.error e, calls ++ calls2)
      | (Except.ok infos, calls2) => (Except.ok ((rev, info) :: infos), calls ++ calls2)

/-- `path.join` for the two-segment joins used by the sources. -/
def pathJoin (a b : String) : String := a ++ "/" ++ b

/-- `buildLoadArchiveDeltaCommand` (loadArchive.ts lines 50-146): build the
dependency revisions, build the new revision, export its output to the
workdir archive, compute the store delta, remove the stale
`instructionDir/archiveFolderName`, materialize the archive subset with
`dataItemPaths = added` and `infoItemPaths = partialNarinfos ? added :
allResultingItems`, and emit the serialized command. -/
def buildLoadArchiveDeltaCommand (env : BuildEnv) (args : BuildLoadArgs)
    (shared : BuildSharedArgs) : Except BuildErr LoadCommand × List ExtCall :=
  match buildDepRevs env.flake args.flakeGitUri args.hostname
      shared.workdirStorePath args.deltaDependencyRevs with
  | (Except.error e, calls) => (Except.error e, calls)
  | (Except.ok oldRevBuildInfos, calls) =>
    match buildSystemFlakeForRev env.flake args.flakeGitUri args.hostname
        shared.workdirStorePath args.newRev with
    | (Except.error e, calls2) => (Except.error e, calls ++ calls2)
    | (Except.ok newRevBuildInfo, calls2) =>
      let pathInfo := computeDelta env.store
        (oldRevBuildInfos.map (fun i => i.2.output)) newRevBuildInfo.output
      let archiveFolderPath := pathJoin shared.instructionFolderPath args.archiveFolderName
      let infoItemPaths := if args.partialNarinfos
        then pathInfo.added.map (fun info => info.path)
        else pathInfo.allResultingItems.map (fun info => info.path)
      let dataItemPaths := pathInfo.added.map (fun info => info.path)
      (Except.ok
        { archivePath := args.archiveFolderName,
          deltaDependencies := oldRevBuildInfos.map (fun i =>
            { gitRevision := i.1, nixPath := i.2.output }),
          partialNarinfos := args.partialNarinfos,
          item := { gitRevision := args.newRev, nixPath := newRevBuildInfo.output } },
        calls ++ calls2
          ++ [ExtCall.copyOutputToArchive shared.workdirStorePath
                shared.workdirArchivePath newRevBuildInfo.output,
              ExtCall.rmArchiveFolder archiveFolderPath,
              ExtCall.archiveSubset archiveFolderPath infoItemPaths dataItemPaths])

/-! ## Instruction model and validation -/

/-- The closed command sum, discriminated by `kind` (spec §4.4). -/
inductive Command
  | load (cmd : LoadCommand)
  | switch (cmd : StoreSwitchCommand)
deriving DecidableEq, Repr

/-- Whether a command is the `switch` variant. -/
def Command.isSwitchCmd : Command → Bool
  | .switch _ => true
  | .load _ => false

/-- Whether a `load` command's `archivePath` exists as a directory of the
instruction directory (`dirs` are the subdirectory names present). -/
def archiveDirOk (dirs : List String) : Command → Bool
  | .load c => dirs.contains c.archivePath
  | .switch _ => true

/-- At most one `Switch` and it is last: no command before the final
position is a `Switch`. -/
def switchOnlyLast (cmds : List Command) : Bool :=
  cmds.dropLast.all (fun c => !(c.isSwitchCmd))

/-- Validation failure (spec §4.5: any violation is `InvalidInstruction`). -/
inductive InstrErr
  | invalidInstruction (reason : String)
deriving DecidableEq, Repr

/-- Modelled from the spec: `assertInstructionDirValid`
(`src/utils/instructions` is absent from `src/`; spec §4.5).  It verifies
every `Load.archivePath` exists as a directory and that at most one `Switch`
is present and is last; the delta-dependency check of §4.5 never rejects (a
root that is not the item of an earlier `Load` is "presumed present on
target") and is omitted.  Any violation is `InvalidInstruction`. -/
def assertInstructionDirValid (dirs : List String) (cmds : List Command) :
    Except InstrErr Unit :=
  if !(cmds.all (archiveDirOk dirs)) then
    Except.error (InstrErr.invalidInstruction "load archive path missing")
  else if !(switchOnlyLast cmds) then
    Except.error (InstrErr.invalidInstruction "switch must be last")
  else
    Except.ok ()

/-- Modelled from the spec: the executor validates the instruction directory
and only then executes commands in order (spec §4.6 steps 2-3); returned
alongside the result is the list of commands that were executed. -/
def runInstruction (dirs : List String) (cmds : List Command) :
    Except InstrErr Unit × List Command :=
  match assertInstructionDirValid dirs cmds with
  | Except.error e => (Except.error e, [])
  | Except.ok () => (Except.ok (), cmds)

/-! ## Apply-instruction executor (`src/main.ts`, the `dummy2` command) -/

/-- Outcomes of the awaited steps of the `dummy2` handler (main.ts lines
113-188), in source order; `none` is success, `some msg` a thrown error.
`readKind` is the `kind` field of the instruction read by
`readDirInstruction` (the handler throws unless it is `"switch"`). -/
structure ApplyEnv where
  decompress : Option String
  readErr : Option String
  readKind : String
  validate : Option String
  listFiles : Option String
  narinfoList : Option String
  copyNarinfos : Option String
  importArchive : Option String
  updateCache : Option String

/-- First failing step, if any. -/
def firstErr : List (Option String) → Option String
  | [] => none
  | none :: rest => firstErr rest
  | some e :: _ => some e

/-- The `dummy2` handler: make the workdir, decompress the instruction into
it, read and validate it, enrich the archive, import it into the store,
update the client-state cache, and only then `fs.promises.rm` the workdir.
There is no catch block, so the first thrown error propagates and the
removal never runs.  Result: the handler's outcome paired with whether the
workdir is still present afterwards. -/
def applyInstructionRun (env : ApplyEnv) : Except String Unit × Bool :=
  match firstErr [env.decompress, env.readErr,
    (if env.readKind = "switch" then none else some "Invalid instruction kind"),
    env.validate, env.listFiles, env.narinfoList, env.copyNarinfos,
    env.importArchive, env.updateCache] with
  | some e => (Except.error e, true)
  | none => (Except.ok (), false)

/-! ## Helpers for stating properties, and sample environments -/

/-- Whether an `Except` is a success. -/
def exceptIsOk : Except ε α → Bool
  | Except.ok _ => true
  | Except.error _ => false

/-- Whether a validation result is an `InvalidInstruction` rejection. -/
def isInvalidInstruction : Except InstrErr Unit → Bool
  | Except.error (InstrErr.invalidInstruction _) => true
  | Except.ok _ => false

/-- A property of the final filesystem state, trivially true on failure. -/
def onOkState (P : FsState → Prop) : Except (ExecErr × FsState) FsState → Prop
  | Except.ok fs => P fs
  | Except.error _ => True

/-- A property of the filesystem state at the point of failure, trivially
true on success. -/
def onErrState (P : FsState → Prop) : Except (ExecErr × FsState) FsState → Prop
  | Except.error (_, fs) => P fs
  | Except.ok _ => True

/-- Whether an external call is a `nix build` invocation. -/
def isNixBuild : ExtCall → Bool
  | ExtCall.nixBuild _ _ _ => true
  | _ => false

/-- The workdir discipline of the `dummy2` handler: on success the workdir
has been removed, on failure it is still present (and the error is the
handler's result). -/
def workdirInvariant : Except String Unit × Bool → Prop
  | (Except.ok _, present) => present = false
  | (Except.error _, present) => present = true

/-- A concrete toolchain behaviour for witnesses: the flake's default ref
resolves to one fixed commit and declares the single hostname `testvm`
(mirroring the test flake hard-coded in main.ts). -/
def sampleFlakeEnv : FlakeEnv where
  revisionFor := fun _ => "e7a4e422fed320cbd580669d142fd8f538edac89"
  hostnamesAt := fun _ => ["testvm"]
  drvPathAt := fun rv h => "/nix/store/" ++ h ++ "-" ++ rv ++ ".drv"
  outPathAt := fun rv h => "/nix/store/out-" ++ h ++ "-" ++ rv

/-- Build arguments requesting the hostname `ghost`, absent from
`sampleFlakeEnv`. -/
def ghostBuildArgs : BuildFlakeArgs where
  flakeGitUri := "git+file:///flake"
  storeAbsolutePath := "/workdir/store"
  hostname := "ghost"
  ref := none

/-- A concrete build environment with an empty workdir store. -/
def sampleBuildEnv : BuildEnv where
  flake := sampleFlakeEnv
  store := []

/-- Concrete load-build arguments with one delta dependency. -/
def sampleBuildLoadArgs : BuildLoadArgs where
  flakeGitUri := "git+file:///flake"
  hostname := "testvm"
  archiveFolderName := "archive"
  deltaDependencyRevs := ["bb60c1fc88e454cceed98ec3af0e0750481536b5"]
  partialNarinfos := true
  newRev := "f76088a37336f3226065a6405b81494b06eced20"

/-- Concrete builder shared arguments. -/
def sampleBuildShared : BuildSharedArgs where
  instructionFolderPath := "/tmp/instruction"
  workdirArchivePath := "/tmp/workdir/archive"
  workdirStorePath := "/tmp/workdir/store"

/-- A concrete serialized load command. -/
def sampleLoadCmd : LoadCommand where
  archivePath := "archive"
  deltaDependencies := []
  partialNarinfos := true
  item :=
    { nixPath := "/nix/store/out-testvm",
      gitRevision := "f76088a37336f3226065a6405b81494b06eced20" }

/-- A concrete serialized switch command. -/
def sampleSwitchCmd : StoreSwitchCommand where
  item :=
    { nixPath := "/nix/store/out-testvm",
      gitRevision := "f76088a37336f3226065a6405b81494b06eced20" }
  mode := SwitchMode.immediate

/-! ## Theorems -/

/-- C1: the claim says a Switch with mode `next-reboot` leaves the running
system unchanged until the next boot, but `executeStoreSwitchCommand`
invokes `makeNewSystemGeneration` with `executeActivation: "switch"` —
the immediate-activation verb — regardless of `args.mode`, which is the
verb the spec reserves for `immediate`, not the `boot` verb a `next-reboot`
switch requires. -/
theorem executeStoreSwitchCommand_nextReboot_activates_immediately :
    (executeStoreSwitchCommand
      { item := { nixPath := "/nix/store/out-testvm",
                  gitRevision := "f76088a37336f3226065a6405b81494b06eced20" },
        mode := SwitchMode.nextReboot }).executeActivation = "switch"
    ∧ specActivationVerb SwitchMode.nextReboot ≠ "switch" :=
  ⟨rfl, by decide⟩

/-- C2: the claim says `buildToplevel(rev)` builds at exactly `rev` and the
returned StoreRoot has `gitRevision = rev`, but the caller's `rev` property
does not exist in `BuildFlakeArgs` (the field is `ref`), so the requested
revision is dropped: with a flake whose default ref resolves to
`e7a4e…ac89`, requesting `f76088…ed20` still builds and returns the
default revision. -/
theorem buildSystemFlakeForRev_drops_requested_rev :
    (buildSystemFlakeForRev sampleFlakeEnv "git+file:///flake" "testvm" "/workdir/store"
        "f76088a37336f3226065a6405b81494b06eced20").1 =
      Except.ok
        { derivation := "/nix/store/testvm-e7a4e422fed320cbd580669d142fd8f538edac89.drv",
          output := "/nix/store/out-testvm-e7a4e422fed320cbd580669d142fd8f538edac89",
          gitRevision := "e7a4e422fed320cbd580669d142fd8f538edac89" }
    ∧ "e7a4e422fed320cbd580669d142fd8f538edac89"
        ≠ "f76088a37336f3226065a6405b81494b06eced20" :=
  ⟨rfl, by decide⟩

/-- C10: `executeLoadArchiveDeltaCommand` never consults `partialNarinfos`:
two executions of the same serialized command differing only in that field
perform identical enrichment, import and cache-append steps and produce the
same result. -/
theorem executeLoad_independent_of_partialNarinfos (env : ExecEnv)
    (shared : ExecSharedArgs) (fs : FsState) (ap : String)
    (deps : List StoreRoot) (item : StoreRoot) (p₁ p₂ : Bool) :
    executeLoadArchiveDeltaCommand env
      { archivePath := ap, deltaDependencies := deps, partialNarinfos := p₁, item := item }
      shared fs
    = executeLoadArchiveDeltaCommand env
      { archivePath := ap, deltaDependencies := deps, partialNarinfos := p₂, item := item }
      shared fs :=
  rfl

/-- C9: the `dummy2` handler removes the workdir only as its final step and
has no catch block, so the workdir is removed exactly when every step
succeeded, and on any failure it is left in place with the error as the
handler's outcome. -/
theorem applyInstruction_workdir_cleanup (env : ApplyEnv) :
    workdirInvariant (applyInstructionRun env) := by
  unfold applyInstructionRun
  generalize firstErr _ = o
  cases o <;> simp [workdirInvariant]

/-- Copying one file into a listing adds no name beyond the copied one. -/
theorem mem_copyFileIn {a : List String} {x f : String}
    (h : f ∈ copyFileIn a x) : f ∈ a ∨ f = x := by
  unfold copyFileIn at h
  split at h
  · exact Or.inl h
  · rcases List.mem_append.mp h with h' | h'
    · exact Or.inl h'
    · exact Or.inr (List.mem_singleton.mp h')

/-- Copying files into a listing adds no names beyond the copied ones. -/
theorem mem_copyFilesIn {f : String} :
    ∀ {b a : List String}, f ∈ copyFilesIn a b → f ∈ a ∨ f ∈ b := by
  intro b
  induction b with
  | nil => intro a h; exact Or.inl h
  | cons x xs ih =>
    intro a h
    rcases ih h with h' | h'
    · rcases mem_copyFileIn h' with h'' | h''
      · exact Or.inl h''
      · exact Or.inr (by simp [h''])
    · exact Or.inr (List.mem_cons_of_mem _ h')

/-- C4: in `Load.execute` the client-state cache receives exactly the
pre-enrichment snapshot of the archive's narinfo files (`Ebefore`,
`getAbsoluteNarinfoListInDir` taken before the dependency loop): on success
the cache is the old cache plus `Ebefore` — so every cached name was already
cached or in the pre-enrichment archive, and the dependency narinfo files
merged in during enrichment are never added — and on failure it is
untouched. -/
theorem executeLoad_cache_from_preEnrichment (env : ExecEnv) (cmd : LoadCommand)
    (shared : ExecSharedArgs) (fs : FsState) :
    onOkState (fun fsFinal =>
        fsFinal.cacheNarinfos = copyFilesIn fs.cacheNarinfos fs.archiveNarinfos
        ∧ fsFinal.cacheNarinfos.all (fun f =>
            fs.cacheNarinfos.contains f || fs.archiveNarinfos.contains f) = true)
      (executeLoadArchiveDeltaCommand env cmd shared fs).1
    ∧ onErrState (fun fsErr => fsErr.cacheNarinfos = fs.cacheNarinfos)
      (executeLoadArchiveDeltaCommand env cmd shared fs).1 := by
  unfold executeLoadArchiveDeltaCommand
  by_cases h : env.importOk cmd.item.nixPath
      (if shared.storePath = "/" then none else some shared.storePath)
  · simp only [h, if_true]
    refine ⟨⟨rfl, ?_⟩, trivial⟩
    rw [List.all_eq_true]
    intro f hf
    simp only [Bool.or_eq_true, List.elem_iff]
    exact mem_copyFilesIn hf
  · simp only [h, if_false]
    exact ⟨trivial, rfl⟩

/-- C7: the sub-steps of `Load.execute` are traced in the order
archive enrichment → store import → cache append, the cache append occurring
only when the import succeeded; when the import fails the client-state cache
is exactly as before. -/
theorem executeLoad_substep_order (env : ExecEnv) (cmd : LoadCommand)
    (shared : ExecSharedArgs) (fs : FsState) :
    (executeLoadArchiveDeltaCommand env cmd shared fs).2 =
      [ExecStep.enrichArchive (env.narinfoFilesFor
          (if shared.storePath = "/" then none else some shared.storePath)
          shared.clientStateStorePath
          (cmd.deltaDependencies.map (fun d => d.nixPath))),
       ExecStep.importToStore cmd.item.nixPath]
      ++ (if env.importOk cmd.item.nixPath
              (if shared.storePath = "/" then none else some shared.storePath)
          then [ExecStep.appendCache fs.archiveNarinfos] else [])
    ∧ onErrState (fun fsErr => fsErr.cacheNarinfos = fs.cacheNarinfos)
      (executeLoadArchiveDeltaCommand env cmd shared fs).1 := by
  unfold executeLoadArchiveDeltaCommand
  by_cases h : env.importOk cmd.item.nixPath
      (if shared.storePath = "/" then none else some shared.storePath)
  · simp [h, onErrState]
  · simp [h, onErrState]

/-- Every info record of a closure carries a path of that closure. -/
theorem mem_closureInfos_path {D : List PathInfo} {R : String} {p : PathInfo}
    (hp : p ∈ closureInfos D R) : p.path ∈ closurePaths D R := by
  rcases List.mem_filterMap.mp hp with ⟨q, hq, hfind⟩
  have hpq : p.path = q := by
    have := List.find?_some hfind
    simpa using this
  rw [hpq]
  exact hq

/-- C3: the delta engine returns as `added` the path infos of the to-closure
whose path is not in the union of the from-closures: `added` is disjoint
from every from-root's closure, `added` is the whole to-closure when there
are no from-roots, and deltaing a root against itself yields an empty
`added` with `allResultingItems` the root's closure. -/
theorem computeDelta_added_disjoint_empty_self (D : List PathInfo)
    (F : List String) (T R : String) :
    ((computeDelta D F T).added.all (fun p =>
        F.all (fun r => !((closurePaths D r).contains p.path))) = true)
    ∧ (computeDelta D [] T).added = closureInfos D T
    ∧ (computeDelta D [R] R).added = []
    ∧ (computeDelta D [R] R).allResultingItems = closureInfos D R := by
  refine ⟨?_, ?_, ?_, rfl⟩
  · rw [List.all_eq_true]
    intro p hp
    rw [List.all_eq_true]
    intro r hr
    have hp' : p ∈ (closureInfos D T).filter
        (fun q => !((unionClosure D F).contains q.path)) := hp
    have hnot := (List.mem_filter.mp hp').2
    simp only [Bool.not_eq_true'] at hnot
    simp only [Bool.not_eq_true']
    simp only [List.elem_eq_mem, decide_eq_false_iff_not] at hnot ⊢
    intro hmem
    exact hnot (List.mem_flatMap.mpr ⟨r, hr, hmem⟩)
  · have : unionClosure D ([] : List String) = [] := rfl
    unfold computeDelta
    rw [this]
    simp
  · show (closureInfos D R).filter
        (fun q => !((unionClosure D [R]).contains q.path)) = []
    rw [List.filter_eq_nil_iff]
    intro p hp
    have hmem : p.path ∈ unionClosure D [R] := by
      unfold unionClosure
      simp only [List.flatMap_cons, List.flatMap_nil, List.append_nil]
      exact mem_closureInfos_path hp
    simp [List.elem_iff]
    exact hmem

/-- C6: when the requested hostname is not among the flake's declared
configurations, `buildSystemFlake` fails with the unknown-hostname error
carrying the available hostnames, and its trace of external calls contains
no `nix build` invocation. -/
theorem buildSystemFlake_unknownHostname (env : FlakeEnv) (args : BuildFlakeArgs)
    (h : args.hostname ∉ env.hostnamesAt (env.revisionFor args.ref)) :
    (buildSystemFlake env args).1 =
      Except.error (BuildErr.unknownHostname args.hostname
        (env.hostnamesAt (env.revisionFor args.ref)))
    ∧ (buildSystemFlake env args).2.all (fun c => !(isNixBuild c)) = true := by
  unfold buildSystemFlake
  simp [h, isNixBuild]

/-- Witness for C6 at a concrete flake declaring only `testvm`: requesting
`ghost` yields the unknown-hostname error listing `["testvm"]`, with no
`nix build` in the trace. -/
theorem buildSystemFlake_unknownHostname_witness :
    (buildSystemFlake sampleFlakeEnv ghostBuildArgs).1 =
      Except.error (BuildErr.unknownHostname "ghost" ["testvm"])
    ∧ (buildSystemFlake sampleFlakeEnv ghostBuildArgs).2.all
        (fun c => !(isNixBuild c)) = true :=
  buildSystemFlake_unknownHostname sampleFlakeEnv ghostBuildArgs (by decide)

/-- If no command before the last is a `Switch`, at most one command of the
list is a `Switch`. -/
theorem switchOnlyLast_filter_le_one {cmds : List Command}
    (h : switchOnlyLast cmds = true) :
    (cmds.filter Command.isSwitchCmd).length ≤ 1 := by
  by_cases hne : cmds = []
  · simp [hne]
  · have hsplit := List.dropLast_append_getLast hne
    have hdrop : cmds.dropLast.filter Command.isSwitchCmd = [] := by
      rw [List.filter_eq_nil_iff]
      intro c hcmem
      have hc := (List.all_eq_true.mp h) c hcmem
      simp only [Bool.not_eq_true'] at hc
      simp [hc]
    calc (cmds.filter Command.isSwitchCmd).length
        = ((cmds.dropLast ++ [cmds.getLast hne]).filter Command.isSwitchCmd).length := by
          rw [hsplit]
      _ ≤ 1 := by
          rw [List.filter_append, hdrop, List.nil_append, List.filter_singleton]
          cases hl : (cmds.getLast hne).isSwitchCmd <;> simp

/-- C8: validation accepts a command list only if no `Switch` precedes
another command (hence at most one `Switch`, in last position); an
instruction whose commands place a `Switch` before another command is
rejected with `InvalidInstruction` by the executor, which then executes no
command at all. -/
theorem assertInstructionDirValid_switch_last (dirs : List String)
    (cmds : List Command) (s : StoreSwitchCommand) (c2 : Command) :
    (exceptIsOk (assertInstructionDirValid dirs cmds) = true →
       switchOnlyLast cmds = true
       ∧ (cmds.filter Command.isSwitchCmd).length ≤ 1)
    ∧ isInvalidInstruction (runInstruction dirs [Command.switch s, c2]).1 = true
    ∧ (runInstruction dirs [Command.switch s, c2]).2 = [] := by
  refine ⟨?_, ?_, ?_⟩
  · intro hok
    unfold assertInstructionDirValid exceptIsOk at hok
    by_cases h1 : cmds.all (archiveDirOk dirs) = true
    · by_cases h2 : switchOnlyLast cmds = true
      · exact ⟨h2, switchOnlyLast_filter_le_one h2⟩
      · simp [h1, h2] at hok
    · simp [h1] at hok
  · unfold runInstruction assertInstructionDirValid
    have hsw : archiveDirOk dirs (Command.switch s) = true := rfl
    by_cases hc : archiveDirOk dirs c2 = true
    · simp [hsw, hc, switchOnlyLast, Command.isSwitchCmd, List.dropLast,
        isInvalidInstruction]
    · rw [Bool.not_eq_true] at hc
      simp [hsw, hc, isInvalidInstruction]
  · unfold runInstruction assertInstructionDirValid
    have hsw : archiveDirOk dirs (Command.switch s) = true := rfl
    by_cases hc : archiveDirOk dirs c2 = true
    · simp [hsw, hc, switchOnlyLast, Command.isSwitchCmd, List.dropLast]
    · rw [Bool.not_eq_true] at hc
      simp [hsw, hc]

/-- Witness for C8: the instruction `[Load, Switch]` (archive directory
present) passes validation, so the theorem yields its switch-last shape;
the reordered `[Switch, Load]` is rejected with `InvalidInstruction` and no
command is executed. -/
theorem assertInstructionDirValid_switch_last_witness :
    (switchOnlyLast [Command.load sampleLoadCmd, Command.switch sampleSwitchCmd] = true
      ∧ ([Command.load sampleLoadCmd, Command.switch sampleSwitchCmd].filter
          Command.isSwitchCmd).length ≤ 1)
    ∧ isInvalidInstruction (runInstruction ["archive"]
        [Command.switch sampleSwitchCmd, Command.load sampleLoadCmd]).1 = true
    ∧ (runInstruction ["archive"]
        [Command.switch sampleSwitchCmd, Command.load sampleLoadCmd]).2 = [] :=
  ⟨(assertInstructionDirValid_switch_last ["archive"]
      [Command.load sampleLoadCmd, Command.switch sampleSwitchCmd]
      sampleSwitchCmd (Command.load sampleLoadCmd)).1 (by decide),
   (assertInstructionDirValid_switch_last ["archive"]
      [Command.load sampleLoadCmd, Command.switch sampleSwitchCmd]
      sampleSwitchCmd (Command.load sampleLoadCmd)).2.1,
   (assertInstructionDirValid_switch_last ["archive"]
      [Command.load sampleLoadCmd, Command.switch sampleSwitchCmd]
      sampleSwitchCmd (Command.load sampleLoadCmd)).2.2⟩

/-- When the hostname is declared at the default-resolved revision, the
rev-requesting call succeeds (at that default revision, the requested `rev`
being dropped). -/
theorem buildSystemFlakeForRev_ok (env : FlakeEnv) (uri host store rev : String)
    (h : host ∈ env.hostnamesAt (env.revisionFor none)) :
    buildSystemFlakeForRev env uri host store rev =
      (Except.ok
        { derivation := env.drvPathAt (env.revisionFor none) host,
          output := env.outPathAt (env.revisionFor none) host,
          gitRevision := env.revisionFor none },
       [ExtCall.flakeInfo uri none,
        ExtCall.flakeShow uri (some (env.revisionFor none)),
        ExtCall.nixBuild uri (env.revisionFor none) host]) := by
  unfold buildSystemFlakeForRev buildSystemFlake
  simp [h]

/-- Under the same hypothesis, the dependency-revision loop succeeds,
pairing each requested revision with the (identical) build result. -/
theorem buildDepRevs_ok (env : FlakeEnv) (uri host store : String)
    (h : host ∈ env.hostnamesAt (env.revisionFor none)) (revs : List String) :
    buildDepRevs env uri host store revs =
      (Except.ok (revs.map (fun rev => (rev,
          ({ derivation := env.drvPathAt (env.revisionFor none) host,
             output := env.outPathAt (env.revisionFor none) host,
             gitRevision := env.revisionFor none } : FlakeBuildResult)))),
       revs.flatMap (fun _ =>
         [ExtCall.flakeInfo uri none,
          ExtCall.flakeShow uri (some (env.revisionFor none)),
          ExtCall.nixBuild uri (env.revisionFor none) host])) := by
  induction revs with
  | nil => rfl
  | cons rev revs ih =>
    rw [buildDepRevs, buildSystemFlakeForRev_ok env uri host store rev h, ih]
    simp

/-- C5: a successful `Load` build first removes the stale
`instructionDir/archiveFolderName` and then materializes the archive subset
there, with data entries exactly the delta's added paths and info entries
the added paths when `partialNarinfos` is true or all paths of the
resulting closure when it is false; the emitted command records the
dependency and new store roots. -/
theorem buildLoad_rm_then_subset (env : BuildEnv) (args : BuildLoadArgs)
    (shared : BuildSharedArgs)
    (h : args.hostname ∈ env.flake.hostnamesAt (env.flake.revisionFor none)) :
    buildLoadArchiveDeltaCommand env args shared =
      (Except.ok
        { archivePath := args.archiveFolderName,
          deltaDependencies := args.deltaDependencyRevs.map (fun rev =>
            { gitRevision := rev,
              nixPath := env.flake.outPathAt (env.flake.revisionFor none) args.hostname }),
          partialNarinfos := args.partialNarinfos,
          item :=
            { gitRevision := args.newRev,
              nixPath := env.flake.outPathAt (env.flake.revisionFor none) args.hostname } },
       (args.deltaDependencyRevs.flatMap (fun _ =>
          [ExtCall.flakeInfo args.flakeGitUri none,
           ExtCall.flakeShow args.flakeGitUri (some (env.flake.revisionFor none)),
           ExtCall.nixBuild args.flakeGitUri (env.flake.revisionFor none) args.hostname]))
        ++ [ExtCall.flakeInfo args.flakeGitUri none,
            ExtCall.flakeShow args.flakeGitUri (some (env.flake.revisionFor none)),
            ExtCall.nixBuild args.flakeGitUri (env.flake.revisionFor none) args.hostname]
        ++ [ExtCall.copyOutputToArchive shared.workdirStorePath shared.workdirArchivePath
              (env.flake.outPathAt (env.flake.revisionFor none) args.hostname),
            ExtCall.rmArchiveFolder
              (pathJoin shared.instructionFolderPath args.archiveFolderName),
            ExtCall.archiveSubset
              (pathJoin shared.instructionFolderPath args.archiveFolderName)
              (if args.partialNarinfos
               then (computeDelta env.store
                  (args.deltaDependencyRevs.map (fun _ =>
                    env.flake.outPathAt (env.flake.revisionFor none) args.hostname))
                  (env.flake.outPathAt (env.flake.revisionFor none) args.hostname)).added.map
                    (fun info => info.path)
               else (computeDelta env.store
                  (args.deltaDependencyRevs.map (fun _ =>
                    env.flake.outPathAt (env.flake.revisionFor none) args.hostname))
                  (env.flake.outPathAt (env.flake.revisionFor none) args.hostname)).allResultingItems.map
                    (fun info => info.path))
              ((computeDelta env.store
                  (args.deltaDependencyRevs.map (fun _ =>
                    env.flake.outPathAt (env.flake.revisionFor none) args.hostname))
                  (env.flake.outPathAt (env.flake.revisionFor none) args.hostname)).added.map
                    (fun info => info.path))]) := by
  simp only [buildLoadArchiveDeltaCommand,
    buildDepRevs_ok env.flake args.flakeGitUri args.hostname shared.workdirStorePath h
      args.deltaDependencyRevs,
    buildSystemFlakeForRev_ok env.flake args.flakeGitUri args.hostname
      shared.workdirStorePath args.newRev h,
    List.map_map, Function.comp_def]

/-- Witness for C5 at the concrete sample environment with one delta
dependency: the stale archive directory removal immediately precedes the
archive-subset step, whose data entries are the delta's added paths and,
with `partialNarinfos = true`, whose info entries are the added paths. -/
theorem buildLoad_rm_then_subset_witness :
    buildLoadArchiveDeltaCommand sampleBuildEnv sampleBuildLoadArgs sampleBuildShared =
      (Except.ok
        { archivePath := sampleBuildLoadArgs.archiveFolderName,
          deltaDependencies := sampleBuildLoadArgs.deltaDependencyRevs.map (fun rev =>
            { gitRevision := rev,
              nixPath := sampleBuildEnv.flake.outPathAt
                (sampleBuildEnv.flake.revisionFor none) sampleBuildLoadArgs.hostname }),
          partialNarinfos := sampleBuildLoadArgs.partialNarinfos,
          item :=
            { gitRevision := sampleBuildLoadArgs.newRev,
              nixPath := sampleBuildEnv.flake.outPathAt
                (sampleBuildEnv.flake.revisionFor none) sampleBuildLoadArgs.hostname } },
       (sampleBuildLoadArgs.deltaDependencyRevs.flatMap (fun _ =>
          [ExtCall.flakeInfo sampleBuildLoadArgs.flakeGitUri none,
           ExtCall.flakeShow sampleBuildLoadArgs.flakeGitUri
             (some (sampleBuildEnv.flake.revisionFor none)),
           ExtCall.nixBuild sampleBuildLoadArgs.flakeGitUri
             (sampleBuildEnv.flake.revisionFor none) sampleBuildLoadArgs.hostname]))
        ++ [ExtCall.flakeInfo sampleBuildLoadArgs.flakeGitUri none,
            ExtCall.flakeShow sampleBuildLoadArgs.flakeGitUri
              (some (sampleBuildEnv.flake.revisionFor none)),
            ExtCall.nixBuild sampleBuildLoadArgs.flakeGitUri
              (sampleBuildEnv.flake.revisionFor none) sampleBuildLoadArgs.hostname]
        ++ [ExtCall.copyOutputToArchive sampleBuildShared.workdirStorePath
              sampleBuildShared.workdirArchivePath
              (sampleBuildEnv.flake.outPathAt
                (sampleBuildEnv.flake.revisionFor none) sampleBuildLoadArgs.hostname),
            ExtCall.rmArchiveFolder
              (pathJoin sampleBuildShared.instructionFolderPath
                sampleBuildLoadArgs.archiveFolderName),
            ExtCall.archiveSubset
              (pathJoin sampleBuildShared.instructionFolderPath
                sampleBuildLoadArgs.archiveFolderName)
              (if sampleBuildLoadArgs.partialNarinfos
               then (computeDelta sampleBuildEnv.store
                  (sampleBuildLoadArgs.deltaDependencyRevs.map (fun _ =>
                    sampleBuildEnv.flake.outPathAt
                      (sampleBuildEnv.flake.revisionFor none) sampleBuildLoadArgs.hostname))
                  (sampleBuildEnv.flake.outPathAt
                    (sampleBuildEnv.flake.revisionFor none) sampleBuildLoadArgs.hostname)).added.map
                    (fun info => info.path)
               else (computeDelta sampleBuildEnv.store
                  (sampleBuildLoadArgs.deltaDependencyRevs.map (fun _ =>
                    sampleBuildEnv.flake.outPathAt
                      (sampleBuildEnv.flake.revisionFor none) sampleBuildLoadArgs.hostname))
                  (sampleBuildEnv.flake.outPathAt
                    (sampleBuildEnv.flake.revisionFor none) sampleBuildLoadArgs.hostname)).allResultingItems.map
                    (fun info => info.path))
              ((computeDelta sampleBuildEnv.store
                  (sampleBuildLoadArgs.deltaDependencyRevs.map (fun _ =>
                    sampleBuildEnv.flake.outPathAt
                      (sampleBuildEnv.flake.revisionFor none) sampleBuildLoadArgs.hostname))
                  (sampleBuildEnv.flake.outPathAt
                    (sampleBuildEnv.flake.revisionFor none) sampleBuildLoadArgs.hostname)).added.map
                    (fun info => info.path))]) :=
  buildLoad_rm_then_subset sampleBuildEnv sampleBuildLoadArgs sampleBuildShared (by decide)

end NSync
